import Mathlib

/-!
Verification of `internal/gohome/worktime.go` from sbreitf1/go-worktime.

Durations (`time.Duration`) are modelled as `Int` nanoseconds; instants
(`time.Time`) as a record of an absolute nanosecond instant plus the calendar
fields (`Year`, `Month`, `Day`) that the source inspects, with `Sub` acting on
the absolute instant. Fallible functions return `Except GoError`. The current
wall-clock instant read by `time.Now()` is passed in as an explicit `now`
parameter.
-/

/-- `time.Minute` in nanoseconds. -/
def Minute : Int := 60 * 1000000000

/-- `time.Hour` in nanoseconds. -/
def Hour : Int := 60 * Minute

/-- The three entry kinds `EntryTypeCome`, `EntryTypeLeave`, `EntryTypeTrip`. -/
inductive EntryType where
  | come
  | leave
  | trip
deriving DecidableEq, Repr

/-- A `time.Time`: `abs` is the absolute instant in nanoseconds (what `Sub`
subtracts and `Add` shifts); `year`, `month`, `day` are the calendar fields
the source compares for its same-day check. -/
structure Time where
  abs : Int
  year : Int
  month : Int
  day : Int
deriving DecidableEq, Repr

/-- An `Entry` record `{ Type EntryType; Time time.Time }`. -/
structure Entry where
  type : EntryType
  time : Time
deriving DecidableEq, Repr

/-- The error outcomes of the source: `ErrNoEntries`, the
"did you work all night?" invalid-sequence error, the
"list of entries must be for the same day" error, the three
"unexpected entry at index i" state-machine errors, and `ErrMaxTimeReached`. -/
inductive GoError where
  | noEntries
  | invalidSequence
  | crossDayEntries
  | unexpectedEntry1 (t : EntryType) (i : Nat)
  | unexpectedEntry2 (t : EntryType) (i : Nat)
  | unexpectedEntry3 (t : EntryType) (i : Nat)
  | maxTimeReached
deriving DecidableEq, Repr

/-!
`ComputeAccountedWorkTime` reassigns the pair `(workTime, breakTime)` in three
sequential `if`-blocks.  Each block is embedded as a pair of scalar update
functions (`...w` for the new `workTime`, `...b` for the new `breakTime`);
the Go nesting `if workTime > 6h { if breakTime < 30min { ... } }` becomes a
conjunction in the condition.
-/

/-- New `workTime` after the 6-hour / 30-minute tier block. -/
def tier1w (workTime breakTime : Int) : Int :=
  if 6 * Hour < workTime ∧ breakTime < 30 * Minute then
    (if workTime + breakTime - 6 * Hour < 30 * Minute then 6 * Hour
     else workTime + breakTime - 30 * Minute)
  else workTime

/-- New `breakTime` after the 6-hour / 30-minute tier block. -/
def tier1b (workTime breakTime : Int) : Int :=
  if 6 * Hour < workTime ∧ breakTime < 30 * Minute then
    (if workTime + breakTime - 6 * Hour < 30 * Minute then
       workTime + breakTime - 6 * Hour
     else 30 * Minute)
  else breakTime

/-- New `workTime` after the 9-hour / 45-minute tier block. -/
def tier2w (workTime breakTime : Int) : Int :=
  if 9 * Hour < workTime ∧ breakTime < 45 * Minute then
    (if workTime + breakTime - 9 * Hour < 45 * Minute then 9 * Hour
     else workTime + breakTime - 45 * Minute)
  else workTime

/-- New `breakTime` after the 9-hour / 45-minute tier block. -/
def tier2b (workTime breakTime : Int) : Int :=
  if 9 * Hour < workTime ∧ breakTime < 45 * Minute then
    (if workTime + breakTime - 9 * Hour < 45 * Minute then
       workTime + breakTime - 9 * Hour
     else 45 * Minute)
  else breakTime

/-- New `workTime` after the final 10-hour cap block. -/
def capw (workTime : Int) : Int :=
  if 10 * Hour < workTime then 10 * Hour else workTime

/-- New `breakTime` after the final 10-hour cap block. -/
def capb (workTime breakTime : Int) : Int :=
  if 10 * Hour < workTime then workTime + breakTime - 10 * Hour else breakTime

/-- `ComputeAccountedWorkTime` from worktime.go: the 6h/30min tier, then the
9h/45min tier applied to its output, then the 10-hour cap.  The Go function
also returns an `error` value that is syntactically always `nil`; it is
dropped here. -/
def ComputeAccountedWorkTime (workTime breakTime : Int) : Int × Int :=
  (capw (tier2w (tier1w workTime breakTime) (tier1b workTime breakTime)),
   capb (tier2w (tier1w workTime breakTime) (tier1b workTime breakTime))
        (tier2b (tier1w workTime breakTime) (tier1b workTime breakTime)))

example : ComputeAccountedWorkTime (9 * Hour + 30 * Minute) 0 =
    (9 * Hour, 30 * Minute) := by decide

example : ComputeAccountedWorkTime (6 * Hour + 27 * Minute) 0 =
    (6 * Hour, 27 * Minute) := by decide

/-- C2: For every input pair (workTime, breakTime), the accountedWorkTime
returned by `ComputeAccountedWorkTime` is at most 10 hours. -/
theorem accountedWorkTime_le_ten_hours (workTime breakTime : Int) :
    (ComputeAccountedWorkTime workTime breakTime).1 ≤ 10 * Hour := by
  unfold ComputeAccountedWorkTime capw capb tier2w tier2b tier1w tier1b
    Hour Minute
  dsimp only
  split_ifs <;> omega

/-- C7: `ComputeAccountedWorkTime` conserves total time: the accounted work
time plus the accounted break time equals the input work time plus the input
break time; every tier and the 10-hour cap move time from work to break
without discarding any. -/
theorem accountedWorkTime_conserves_total (workTime breakTime : Int) :
    (ComputeAccountedWorkTime workTime breakTime).1 +
      (ComputeAccountedWorkTime workTime breakTime).2 =
      workTime + breakTime := by
  unfold ComputeAccountedWorkTime capw capb tier2w tier2b tier1w tier1b
    Hour Minute
  dsimp only
  split_ifs <;> omega

set_option maxHeartbeats 1000000 in
/-- C3: For fixed breakTime, the accounted work time of
`ComputeAccountedWorkTime` is monotone non-decreasing in workTime. -/
theorem accountedWorkTime_monotone (breakTime w1 w2 : Int) (h : w1 ≤ w2) :
    (ComputeAccountedWorkTime w1 breakTime).1 ≤
      (ComputeAccountedWorkTime w2 breakTime).1 := by
  unfold ComputeAccountedWorkTime capw tier2w tier2b tier1w tier1b Hour Minute
  dsimp only
  split_ifs <;> omega

theorem accountedWorkTime_monotone_witness :
    (3 * Hour ≤ 7 * Hour) ∧
      (ComputeAccountedWorkTime (3 * Hour) 0).1 ≤
        (ComputeAccountedWorkTime (7 * Hour) 0).1 :=
  ⟨by decide, accountedWorkTime_monotone 0 (3 * Hour) (7 * Hour) (by decide)⟩

/-- The output of `ComputeAccountedWorkTime` already satisfies the break
policy: above six hours of accounted work at least 30 minutes of break are
accounted, above nine hours at least 45 minutes, and the accounted work time
never exceeds ten hours. -/
theorem acc_invariant (w b : Int) :
    (6 * Hour < (ComputeAccountedWorkTime w b).1 →
      30 * Minute ≤ (ComputeAccountedWorkTime w b).2) ∧
    (9 * Hour < (ComputeAccountedWorkTime w b).1 →
      45 * Minute ≤ (ComputeAccountedWorkTime w b).2) ∧
    (ComputeAccountedWorkTime w b).1 ≤ 10 * Hour := by
  unfold ComputeAccountedWorkTime capw capb tier2w tier2b tier1w tier1b
    Hour Minute
  dsimp only
  split_ifs <;> omega

/-- On pairs that already satisfy the break policy, `ComputeAccountedWorkTime`
is the identity. -/
theorem acc_fixed (w b : Int)
    (h1 : 6 * Hour < w → 30 * Minute ≤ b)
    (h2 : 9 * Hour < w → 45 * Minute ≤ b)
    (h3 : w ≤ 10 * Hour) :
    ComputeAccountedWorkTime w b = (w, b) := by
  unfold ComputeAccountedWorkTime capw capb tier2w tier2b tier1w tier1b
  split_ifs <;> first | rfl | (exfalso; unfold Hour Minute at *; omega)

/-- The idealized (unbounded-`Int`) adjuster is idempotent on all inputs:
applying it to its own output returns that output unchanged.  (The Go
function computes in wrapping int64 arithmetic, which breaks this at extreme
inputs; see `ComputeAccountedWorkTimeI64` below.) -/
theorem accountedWorkTime_idempotent (workTime breakTime : Int) :
    ComputeAccountedWorkTime (ComputeAccountedWorkTime workTime breakTime).1
        (ComputeAccountedWorkTime workTime breakTime).2 =
      ComputeAccountedWorkTime workTime breakTime := by
  obtain ⟨h1, h2, h3⟩ := acc_invariant workTime breakTime
  rw [acc_fixed _ _ h1 h2 h3]

/-!
The reducer `ComputeWorkTime` and its state-machine loop.
-/

/-- The loop states `stateNone = 0`, `stateWorking = 1`, `stateTrip = 2`. -/
inductive WState where
  | none
  | working
  | trip
deriving DecidableEq, Repr

/-- The zero `time.Time` of the uninitialised Go local `var lastCome time.Time`
(it is never read before a `Come` entry assigns it). -/
def zeroTime : Time := ⟨0, 1, 1, 1⟩

/-- The state-machine loop of `ComputeWorkTime`: one step per entry, carrying
the state, `lastCome` and the accumulated `workTime`; `i` is the loop index
used in the "unexpected entry" error messages.  Returns the final `workTime`
or the error of the first rejected entry. -/
def computeLoop : WState → Time → Int → Nat → List Entry → Except GoError Int
  | _, _, workTime, _, [] => .ok workTime
  | WState.none, _, workTime, i, e :: rest =>
      match e.type with
      | .come => computeLoop WState.working e.time workTime (i + 1) rest
      | t => .error (.unexpectedEntry1 t i)
  | WState.working, lastCome, workTime, i, e :: rest =>
      match e.type with
      | .leave =>
          computeLoop WState.none lastCome
            (workTime + (e.time.abs - lastCome.abs)) (i + 1) rest
      | .trip => computeLoop WState.trip lastCome workTime (i + 1) rest
      | t => .error (.unexpectedEntry2 t i)
  | WState.trip, lastCome, workTime, i, e :: rest =>
      match e.type with
      | .come => computeLoop WState.working lastCome workTime (i + 1) rest
      | t => .error (.unexpectedEntry3 t i)

/-- `ComputeWorkTime` from worktime.go: rejects an empty list (`ErrNoEntries`),
a first entry that is not `Come` ("did you work all night?"), and first/last
entries on different calendar days; appends a synthetic `Leave` at `now` when
the last entry is not a `Leave`; then runs the state machine and returns
`(workTime, entries[0].Time, presenceTime - workTime)`. -/
def ComputeWorkTime (now : Time) (entries : List Entry) :
    Except GoError (Int × Time × Int) :=
  match entries with
  | [] => .error .noEntries
  | first :: rest =>
    if first.type ≠ EntryType.come then .error .invalidSequence
    else
      let lastE := (first :: rest).getLastD first
      if first.time.year ≠ lastE.time.year ∨ first.time.month ≠ lastE.time.month
          ∨ first.time.day ≠ lastE.time.day then
        .error .crossDayEntries
      else
        let entries2 :=
          if lastE.type ≠ EntryType.leave then
            (first :: rest) ++ [⟨EntryType.leave, now⟩]
          else first :: rest
        match computeLoop WState.none zeroTime 0 0 entries2 with
        | .error e => .error e
        | .ok workTime =>
          let lastE2 := entries2.getLastD first
          .ok (workTime, first.time,
            (lastE2.time.abs - first.time.abs) - workTime)

example :
    ComputeWorkTime ⟨0, 1, 1, 1⟩
      [⟨EntryType.come, ⟨9 * Hour + 10 * Minute, 2024, 1, 5⟩⟩,
       ⟨EntryType.leave, ⟨15 * Hour + 37 * Minute, 2024, 1, 5⟩⟩] =
    .ok (6 * Hour + 27 * Minute, ⟨9 * Hour + 10 * Minute, 2024, 1, 5⟩, 0) := by
  rfl

/-- C9: `ComputeWorkTime` fails with the no-entries error on an empty
sequence, and with the invalid-sequence error whenever the first entry's kind
is `Leave` or `Trip`; in all three cases it returns the bare error and no
results. -/
theorem computeWorkTime_rejections (now tm : Time) (rest : List Entry) :
    ComputeWorkTime now [] = .error GoError.noEntries ∧
    ComputeWorkTime now (⟨EntryType.leave, tm⟩ :: rest) =
      .error GoError.invalidSequence ∧
    ComputeWorkTime now (⟨EntryType.trip, tm⟩ :: rest) =
      .error GoError.invalidSequence :=
  ⟨rfl, rfl, rfl⟩

/-- C1: the `Trip -> Come` transition of the state machine keeps the original
`lastCome` and the accumulated work time unchanged, a `Leave` in the working
state accrues the full span since `lastCome`, and consequently on
`[Come@09:00, Trip@12:00, Come@13:00, Leave@18:00]` the trip interval is not
subtracted: `ComputeWorkTime` returns a work time of 9 hours (and zero break
time). -/
theorem trip_interval_not_subtracted :
    (∀ (lastCome : Time) (workTime : Int) (i : Nat) (tm : Time)
        (rest : List Entry),
      computeLoop WState.trip lastCome workTime i
          (⟨EntryType.come, tm⟩ :: rest) =
        computeLoop WState.working lastCome workTime (i + 1) rest) ∧
    (∀ (lastCome : Time) (workTime : Int) (i : Nat) (tm : Time)
        (rest : List Entry),
      computeLoop WState.working lastCome workTime i
          (⟨EntryType.leave, tm⟩ :: rest) =
        computeLoop WState.none lastCome
          (workTime + (tm.abs - lastCome.abs)) (i + 1) rest) ∧
    (∀ now : Time,
      ComputeWorkTime now
        [⟨EntryType.come, ⟨9 * Hour, 2024, 1, 5⟩⟩,
         ⟨EntryType.trip, ⟨12 * Hour, 2024, 1, 5⟩⟩,
         ⟨EntryType.come, ⟨13 * Hour, 2024, 1, 5⟩⟩,
         ⟨EntryType.leave, ⟨18 * Hour, 2024, 1, 5⟩⟩] =
      .ok (9 * Hour, ⟨9 * Hour, 2024, 1, 5⟩, 0)) :=
  ⟨fun _ _ _ _ _ => rfl, fun _ _ _ _ _ => rfl, fun _ => rfl⟩

/-- C10: on any entry list whose last entry is a `Leave`, `ComputeWorkTime`
never consults the current-time instant: two invocations with different
current times yield identical results (the `now` parameter is only used to
synthesize the terminal `Leave` when the last entry is not a `Leave`). -/
theorem computeWorkTime_no_clock (n1 n2 : Time) (entries : List Entry)
    (e : Entry) (hlast : entries.getLast? = some e)
    (hleave : e.type = EntryType.leave) :
    ComputeWorkTime n1 entries = ComputeWorkTime n2 entries := by
  cases entries with
  | nil => simp at hlast
  | cons first rest =>
    have hld : (first :: rest).getLastD first = e := by
      rw [List.getLastD_eq_getLast?, hlast]
      rfl
    unfold ComputeWorkTime
    dsimp only
    rw [hld, hleave]
    simp

theorem computeWorkTime_no_clock_witness :
    ComputeWorkTime ⟨7 * Hour, 2024, 1, 5⟩
        [⟨EntryType.come, ⟨9 * Hour, 2024, 1, 5⟩⟩,
         ⟨EntryType.leave, ⟨17 * Hour, 2024, 1, 5⟩⟩] =
      ComputeWorkTime ⟨23 * Hour, 2024, 1, 5⟩
        [⟨EntryType.come, ⟨9 * Hour, 2024, 1, 5⟩⟩,
         ⟨EntryType.leave, ⟨17 * Hour, 2024, 1, 5⟩⟩] :=
  computeWorkTime_no_clock ⟨7 * Hour, 2024, 1, 5⟩ ⟨23 * Hour, 2024, 1, 5⟩ _
    ⟨EntryType.leave, ⟨17 * Hour, 2024, 1, 5⟩⟩ rfl rfl

/-- The absolute instant of the last entry of `l`, or `d` when `l` is empty
(the `entries[len(entries)-1].Time` access of the source). -/
def lastAbs (l : List Entry) (d : Int) : Int :=
  match l with
  | [] => d
  | e :: rest => lastAbs rest e.time.abs

theorem lastAbs_cons (e : Entry) (l : List Entry) (d : Int) :
    lastAbs (e :: l) d = lastAbs l e.time.abs := rfl

theorem lastAbs_eq_getLast (l : List Entry) (e : Entry) (d : Int)
    (h : l.getLast? = some e) : lastAbs l d = e.time.abs := by
  induction l generalizing d with
  | nil => cases h
  | cons f t ih =>
    cases t with
    | nil =>
      simp only [List.getLast?_singleton, Option.some.injEq] at h
      subst h
      rfl
    | cons g u =>
      rw [List.getLast?_cons_cons] at h
      exact ih d h

/-- Loop invariant of the state machine: on a time-sorted suffix whose
entries all lie at or after instant `t`, a successful run can only grow the
accumulated work time, and grows it by at most the span from `t` (state
`None`) or from `lastCome` (states `Working`/`Trip`, when `lastCome ≤ t`) to
the last entry of the suffix. -/
theorem computeLoop_bounds (l : List Entry) :
    ∀ (s : WState) (lc : Time) (wt : Int) (i : Nat) (w : Int) (t : Int),
      computeLoop s lc wt i l = .ok w →
      List.Pairwise (fun a b => a.time.abs ≤ b.time.abs) l →
      (∀ e ∈ l, t ≤ e.time.abs) →
      (s = WState.none → wt ≤ w ∧ w ≤ wt + (lastAbs l t - t)) ∧
      (s ≠ WState.none → lc.abs ≤ t →
        wt ≤ w ∧ w ≤ wt + (lastAbs l t - lc.abs)) := by
  induction l with
  | nil =>
    intro s lc wt i w t hrun hpw hmem
    have hw : wt = w := by
      cases s <;> simpa [computeLoop] using hrun
    subst hw
    refine ⟨fun _ => ?_, fun _ hlc => ?_⟩ <;> simp [lastAbs] <;> omega
  | cons e rest ih =>
    intro s lc wt i w t hrun hpw hmem
    obtain ⟨hhead, hpw'⟩ := List.pairwise_cons.mp hpw
    obtain ⟨hte, htrest⟩ := List.forall_mem_cons.mp hmem
    obtain ⟨et, etm⟩ := e
    rw [lastAbs_cons]
    cases s with
    | none =>
      cases et with
      | come =>
        simp only [computeLoop] at hrun
        obtain ⟨-, h2⟩ :=
          ih WState.working etm wt (i + 1) w etm.abs hrun hpw' hhead
        obtain ⟨hlo, hhi⟩ := h2 (by simp) (le_refl etm.abs)
        refine ⟨fun _ => ⟨hlo, ?_⟩, fun hs => absurd rfl hs⟩
        simp only [Entry.time] at hte ⊢
        omega
      | leave => simp [computeLoop] at hrun
      | trip => simp [computeLoop] at hrun
    | working =>
      cases et with
      | leave =>
        simp only [computeLoop] at hrun
        obtain ⟨h1, -⟩ :=
          ih WState.none lc (wt + (etm.abs - lc.abs)) (i + 1) w etm.abs hrun
            hpw' hhead
        obtain ⟨hlo, hhi⟩ := h1 rfl
        refine ⟨fun hs => by simp at hs, fun _ hlc => ?_⟩
        simp only [Entry.time] at hte ⊢
        omega
      | trip =>
        simp only [computeLoop] at hrun
        obtain ⟨-, h2⟩ :=
          ih WState.trip lc wt (i + 1) w etm.abs hrun hpw' hhead
        refine ⟨fun hs => by simp at hs, fun _ hlc => ?_⟩
        obtain ⟨hlo, hhi⟩ := h2 (by simp) (by simp only [Entry.time] at hte; omega)
        exact ⟨hlo, hhi⟩
      | come => simp [computeLoop] at hrun
    | trip =>
      cases et with
      | come =>
        simp only [computeLoop] at hrun
        obtain ⟨-, h2⟩ :=
          ih WState.working lc wt (i + 1) w etm.abs hrun hpw' hhead
        refine ⟨fun hs => by simp at hs, fun _ hlc => ?_⟩
        obtain ⟨hlo, hhi⟩ := h2 (by simp) (by simp only [Entry.time] at hte; omega)
        exact ⟨hlo, hhi⟩
      | leave => simp [computeLoop] at hrun
      | trip => simp [computeLoop] at hrun

/-- C4: on every non-empty, time-ordered entry sequence whose last entry is a
`Leave` and that `ComputeWorkTime` accepts, the returned start time is the
first entry's time, the returned break time is exactly the presence time
(last entry's instant minus first entry's instant) minus the work time, and
both the work time and the break time are non-negative. -/
theorem computeWorkTime_break_decomposition (now : Time) (first lastE : Entry)
    (rest : List Entry)
    (hsorted : List.Pairwise (fun a b => a.time.abs ≤ b.time.abs)
      (first :: rest))
    (hlast : (first :: rest).getLast? = some lastE)
    (hleave : lastE.type = EntryType.leave)
    (wt : Int) (st : Time) (bt : Int)
    (hok : ComputeWorkTime now (first :: rest) = .ok (wt, st, bt)) :
    st = first.time ∧ bt = (lastE.time.abs - first.time.abs) - wt ∧
      0 ≤ wt ∧ 0 ≤ bt := by
  have hld : (first :: rest).getLastD first = lastE := by
    rw [List.getLastD_eq_getLast?, hlast]
    rfl
  unfold ComputeWorkTime at hok
  dsimp only at hok
  rw [hld, hleave] at hok
  simp only [ne_eq, not_true_eq_false, if_false, ite_not] at hok
  split at hok
  case isFalse hcome => exact absurd hok (by simp)
  case isTrue hcome =>
    split at hok
    case isTrue hcross => exact absurd hok (by simp)
    case isFalse hcross =>
      revert hok
      split
      case h_1 err heq => intro hok; exact absurd hok (by simp)
      case h_2 w hloop =>
        intro hok
        obtain ⟨hw, hst, hbt⟩ :
            w = wt ∧ first.time = st ∧
              ((first :: rest).getLastD first).time.abs - first.time.abs - w
                = bt := by
          simpa using hok
        have hmem : ∀ e ∈ first :: rest, first.time.abs ≤ e.time.abs := by
          rw [List.forall_mem_cons]
          exact ⟨le_refl _, (List.pairwise_cons.mp hsorted).1⟩
        obtain ⟨h1, -⟩ := computeLoop_bounds (first :: rest) WState.none
          zeroTime 0 0 w first.time.abs hloop hsorted hmem
        obtain ⟨hlo, hhi⟩ := h1 rfl
        have hla : lastAbs (first :: rest) first.time.abs = lastE.time.abs :=
          lastAbs_eq_getLast _ _ _ hlast
        rw [hld] at hbt
        refine ⟨hst.symm, by omega, by omega, by omega⟩

theorem computeWorkTime_break_decomposition_witness :
    (⟨9 * Hour, 2024, 1, 5⟩ : Time) =
        (⟨EntryType.come, ⟨9 * Hour, 2024, 1, 5⟩⟩ : Entry).time ∧
      (0 : Int) =
        ((⟨EntryType.leave, ⟨17 * Hour, 2024, 1, 5⟩⟩ : Entry).time.abs -
            (⟨EntryType.come, ⟨9 * Hour, 2024, 1, 5⟩⟩ : Entry).time.abs) -
          8 * Hour ∧
      (0 : Int) ≤ 8 * Hour ∧ (0 : Int) ≤ 0 :=
  computeWorkTime_break_decomposition ⟨0, 1, 1, 1⟩
    ⟨EntryType.come, ⟨9 * Hour, 2024, 1, 5⟩⟩
    ⟨EntryType.leave, ⟨17 * Hour, 2024, 1, 5⟩⟩
    [⟨EntryType.leave, ⟨17 * Hour, 2024, 1, 5⟩⟩]
    (by simp [List.pairwise_cons]; decide) rfl rfl
    (8 * Hour) ⟨9 * Hour, 2024, 1, 5⟩ 0 rfl

/-!
The solver `GetLeaveTime` and its minute-step search loop.  The Go loop
`for workTime := targetWorkTime; ; workTime += time.Minute` has no syntactic
bound; it terminates because the accounted work time saturates at 10 hours
once `workTime` is large enough, while the pre-check guarantees
`targetWorkTime <= 10h`.  The embedding makes that termination argument
explicit: the loop carries the pre-check as a hypothesis and recurses on a
well-founded measure.  The loop body also tests the `error` result of
`ComputeAccountedWorkTime`, which is always `nil` and is dropped here.
-/

/-- Once the input work time is at least `10h` and the input total is at
least `10h45min`, the accounted work time is exactly the 10-hour cap. -/
theorem acc_saturates (w b : Int) (h1 : 10 * Hour ≤ w)
    (h2 : 10 * Hour + 45 * Minute ≤ w + b) :
    (ComputeAccountedWorkTime w b).1 = 10 * Hour := by
  unfold ComputeAccountedWorkTime capw capb tier2w tier2b tier1w tier1b
    Hour Minute at *
  dsimp only
  split_ifs <;> omega

/-- The search loop of `GetLeaveTime`: starting from `workTime`, step by one
minute until the accounted work time reaches `targetWorkTime`, and return the
accounted pair found there. -/
def getLeaveLoop (breakTime targetWorkTime : Int)
    (ht : targetWorkTime ≤ 10 * Hour) (workTime : Int) : Int × Int :=
  if targetWorkTime ≤ (ComputeAccountedWorkTime workTime breakTime).1 then
    ComputeAccountedWorkTime workTime breakTime
  else
    getLeaveLoop breakTime targetWorkTime ht (workTime + Minute)
termination_by
  (10 * Hour + 45 * Minute + (breakTime.natAbs : Int) - workTime).toNat
decreasing_by
  rename_i hacc
  have hw : workTime < 10 * Hour + 45 * Minute + (breakTime.natAbs : Int) := by
    by_contra hge
    push_neg at hge
    have hsat : (ComputeAccountedWorkTime workTime breakTime).1 = 10 * Hour := by
      apply acc_saturates
      · have : (0 : Int) ≤ 45 * Minute + (breakTime.natAbs : Int) := by
          unfold Minute
          omega
        omega
      · have : -(breakTime.natAbs : Int) ≤ breakTime := by omega
        omega
    rw [hsat] at hacc
    exact hacc ht
  unfold Hour Minute at *
  omega

/-- `GetLeaveTime` from worktime.go: rejects targets above the 10-hour cap
with `ErrMaxTimeReached`, then searches upward from `targetWorkTime` in
one-minute steps and returns
`startTime + accountedWorkTime + accountedBreakTime`.  Instants are
represented by their absolute nanosecond value (`time.Time.Add` shifts it). -/
def GetLeaveTime (startTime breakTime targetWorkTime : Int) :
    Except GoError Int :=
  if h : 10 * Hour < targetWorkTime then .error .maxTimeReached
  else
    let p := getLeaveLoop breakTime targetWorkTime (le_of_not_lt h)
      targetWorkTime
    .ok (startTime + p.1 + p.2)

/-- C5: `GetLeaveTime` fails with `ErrMaxTimeReached` exactly when the target
work time exceeds 10 hours; for any target at most 10 hours (and non-negative
break time) the minute-step search terminates and a leave instant is returned
without error. -/
theorem getLeaveTime_maxTime_iff (s b t : Int) (hb : 0 ≤ b) :
    (GetLeaveTime s b t = .error GoError.maxTimeReached ↔ 10 * Hour < t) ∧
    (t ≤ 10 * Hour → ∃ r : Int, GetLeaveTime s b t = .ok r) := by
  refine ⟨⟨fun h => ?_, fun h => ?_⟩, fun h => ?_⟩
  · by_contra hc
    push_neg at hc
    unfold GetLeaveTime at h
    rw [dif_neg (not_lt.mpr hc)] at h
    exact absurd h (by simp)
  · unfold GetLeaveTime
    rw [dif_pos h]
  · unfold GetLeaveTime
    rw [dif_neg (not_lt.mpr h)]
    exact ⟨_, rfl⟩

theorem getLeaveTime_maxTime_iff_witness :
    ((GetLeaveTime 0 0 0 = .error GoError.maxTimeReached ↔ 10 * Hour < 0) ∧
      ((0 : Int) ≤ 10 * Hour → ∃ r : Int, GetLeaveTime 0 0 0 = .ok r)) :=
  getLeaveTime_maxTime_iff 0 0 0 (by decide)

/-- The search loop returns the accounted pair at the first probe (in
one-minute steps from its starting work time) whose accounted work time
reaches the target. -/
theorem getLeaveLoop_spec (b t : Int) (ht : t ≤ 10 * Hour) (k0 : Nat) :
    ∀ w : Int,
      t ≤ (ComputeAccountedWorkTime (w + (k0 : Int) * Minute) b).1 →
      (∀ j : Nat, j < k0 →
        (ComputeAccountedWorkTime (w + (j : Int) * Minute) b).1 < t) →
      getLeaveLoop b t ht w =
        ComputeAccountedWorkTime (w + (k0 : Int) * Minute) b := by
  induction k0 with
  | zero =>
    intro w hk _
    rw [getLeaveLoop]
    simp only [Nat.cast_zero, zero_mul, add_zero] at hk ⊢
    rw [if_pos hk]
  | succ k ih =>
    intro w hk hmin
    have h0 : (ComputeAccountedWorkTime w b).1 < t := by
      have := hmin 0 (Nat.succ_pos k)
      simpa using this
    rw [getLeaveLoop, if_neg (not_le.mpr h0)]
    have harith : ∀ j : Nat, w + Minute + (j : Int) * Minute =
        w + ((j + 1 : Nat) : Int) * Minute := by
      intro j
      push_cast
      ring
    have := ih (w + Minute) (by rw [harith]; exact hk)
      (fun j hj => by
        rw [harith]
        exact hmin (j + 1) (Nat.succ_lt_succ hj))
    rw [this, harith]

/-- For a target at most 10 hours, some probe of the minute-step search
reaches the target (the accounted work time saturates at the 10-hour cap). -/
theorem getLeave_exists (b t : Int) (ht : t ≤ 10 * Hour) :
    ∃ k : Nat, t ≤ (ComputeAccountedWorkTime (t + (k : Int) * Minute) b).1 := by
  refine ⟨(10 * Hour + 45 * Minute + (b.natAbs : Int) - t).toNat, ?_⟩
  set k : Nat := (10 * Hour + 45 * Minute + (b.natAbs : Int) - t).toNat with hk
  have hone : (1 : Int) ≤ Minute := by unfold Minute; norm_num
  have hkm : (k : Int) ≤ (k : Int) * Minute :=
    le_mul_of_one_le_right (by positivity) hone
  have hbig : 10 * Hour + 45 * Minute + (b.natAbs : Int) ≤
      t + (k : Int) * Minute := by
    omega
  rw [acc_saturates (t + (k : Int) * Minute) b ?_ ?_]
  · exact ht
  · have h45 : (0 : Int) ≤ 45 * Minute := by unfold Minute; norm_num
    omega
  · have hab : -(b.natAbs : Int) ≤ b := by omega
    omega

/-- C6: for every target work time at most 10 hours and non-negative break
time, the result of `GetLeaveTime` is `startTime + accountedWorkTime +
accountedBreakTime` computed at the smallest probe
`targetWorkTime + k * 1min` (k = 0, 1, 2, ...) whose accounted work time
reaches the target. -/
theorem getLeaveTime_minimal_search (s b t : Int) (hb : 0 ≤ b)
    (ht : t ≤ 10 * Hour) :
    ∃ k : Nat,
      t ≤ (ComputeAccountedWorkTime (t + (k : Int) * Minute) b).1 ∧
      (∀ j : Nat, j < k →
        (ComputeAccountedWorkTime (t + (j : Int) * Minute) b).1 < t) ∧
      GetLeaveTime s b t =
        .ok (s + (ComputeAccountedWorkTime (t + (k : Int) * Minute) b).1 +
          (ComputeAccountedWorkTime (t + (k : Int) * Minute) b).2) := by
  have hex := getLeave_exists b t ht
  refine ⟨Nat.find hex, Nat.find_spec hex, fun j hj => ?_, ?_⟩
  · have := Nat.find_min hex hj
    omega
  · unfold GetLeaveTime
    rw [dif_neg (not_lt.mpr ht)]
    dsimp only
    rw [getLeaveLoop_spec b t ht (Nat.find hex) t (Nat.find_spec hex)
      (fun j hj => by have := Nat.find_min hex hj; omega)]

theorem getLeaveTime_minimal_search_witness :
    ∃ k : Nat,
      6 * Hour ≤ (ComputeAccountedWorkTime (6 * Hour + (k : Int) * Minute) 0).1 ∧
      (∀ j : Nat, j < k →
        (ComputeAccountedWorkTime (6 * Hour + (j : Int) * Minute) 0).1 <
          6 * Hour) ∧
      GetLeaveTime 0 0 (6 * Hour) =
        .ok (0 + (ComputeAccountedWorkTime (6 * Hour + (k : Int) * Minute) 0).1 +
          (ComputeAccountedWorkTime (6 * Hour + (k : Int) * Minute) 0).2) :=
  getLeaveTime_minimal_search 0 0 (6 * Hour) (by decide) (by decide)

/-!
Go's `time.Duration` is an `int64`, so every `+` and `-` in
`ComputeAccountedWorkTime` wraps modulo `2^64` (two's complement).  The
`...I64` definitions below repeat the adjuster with one `wrap64` per
arithmetic operation, faithful to the machine semantics; the unbounded-`Int`
definitions above agree with them whenever no operation overflows.
-/

/-- Two's-complement int64 wrap-around: reduces an integer into
`[-2^63, 2^63)` modulo `2^64`, the result of a Go `int64` operation. -/
def wrap64 (x : Int) : Int :=
  (x + 9223372036854775808) % 18446744073709551616 - 9223372036854775808

/-- New `workTime` after the 6-hour tier block, in wrapping int64
arithmetic. -/
def tier1wI64 (w b : Int) : Int :=
  if 6 * Hour < w ∧ b < 30 * Minute then
    (if wrap64 (wrap64 (w + b) - 6 * Hour) < 30 * Minute then 6 * Hour
     else wrap64 (wrap64 (w + b) - 30 * Minute))
  else w

/-- New `breakTime` after the 6-hour tier block, in wrapping int64
arithmetic. -/
def tier1bI64 (w b : Int) : Int :=
  if 6 * Hour < w ∧ b < 30 * Minute then
    (if wrap64 (wrap64 (w + b) - 6 * Hour) < 30 * Minute then
       wrap64 (wrap64 (w + b) - 6 * Hour)
     else 30 * Minute)
  else b

/-- New `workTime` after the 9-hour tier block, in wrapping int64
arithmetic. -/
def tier2wI64 (w b : Int) : Int :=
  if 9 * Hour < w ∧ b < 45 * Minute then
    (if wrap64 (wrap64 (w + b) - 9 * Hour) < 45 * Minute then 9 * Hour
     else wrap64 (wrap64 (w + b) - 45 * Minute))
  else w

/-- New `breakTime` after the 9-hour tier block, in wrapping int64
arithmetic. -/
def tier2bI64 (w b : Int) : Int :=
  if 9 * Hour < w ∧ b < 45 * Minute then
    (if wrap64 (wrap64 (w + b) - 9 * Hour) < 45 * Minute then
       wrap64 (wrap64 (w + b) - 9 * Hour)
     else 45 * Minute)
  else b

/-- New `workTime` after the cap block (no arithmetic, no wrap). -/
def capwI64 (w : Int) : Int := if 10 * Hour < w then 10 * Hour else w

/-- New `breakTime` after the cap block, in wrapping int64 arithmetic. -/
def capbI64 (w b : Int) : Int :=
  if 10 * Hour < w then wrap64 (wrap64 (w + b) - 10 * Hour) else b

/-- `ComputeAccountedWorkTime` under Go's actual wrapping int64
(`time.Duration`) arithmetic. -/
def ComputeAccountedWorkTimeI64 (workTime breakTime : Int) : Int × Int :=
  (capwI64 (tier2wI64 (tier1wI64 workTime breakTime)
      (tier1bI64 workTime breakTime)),
   capbI64 (tier2wI64 (tier1wI64 workTime breakTime)
        (tier1bI64 workTime breakTime))
      (tier2bI64 (tier1wI64 workTime breakTime)
        (tier1bI64 workTime breakTime)))

/-- C8, counterexample: under the wrapping int64 arithmetic the Go code
actually uses, `ComputeAccountedWorkTime` is not idempotent at the input pair
(2^63-1 ns, 2^63-1 ns): the first application returns `(10h, -10h - 2ns)`
(the cap's break assignment overflows) and the second returns
`(6h, -6h - 2ns)`. -/
theorem accountedWorkTimeI64_not_idempotent :
    ComputeAccountedWorkTimeI64
        (ComputeAccountedWorkTimeI64 9223372036854775807 9223372036854775807).1
        (ComputeAccountedWorkTimeI64 9223372036854775807 9223372036854775807).2
      ≠ ComputeAccountedWorkTimeI64 9223372036854775807 9223372036854775807 := by
  decide

set_option maxHeartbeats 2000000 in
/-- On int64 inputs whose sum does not overflow, the wrapping and the
idealized adjusters agree. -/
theorem accI64_agrees (w b : Int)
    (hw1 : -9223372036854775808 ≤ w) (hw2 : w < 9223372036854775808)
    (hb1 : -9223372036854775808 ≤ b) (hb2 : b < 9223372036854775808)
    (hs1 : -9223372036854775808 ≤ w + b) (hs2 : w + b < 9223372036854775808) :
    ComputeAccountedWorkTimeI64 w b = ComputeAccountedWorkTime w b := by
  unfold ComputeAccountedWorkTimeI64 ComputeAccountedWorkTime
    capwI64 capbI64 tier2wI64 tier2bI64 tier1wI64 tier1bI64
    capw capb tier2w tier2b tier1w tier1b wrap64 Hour Minute
  rw [Prod.mk.injEq]
  constructor <;> (split_ifs <;> omega)

set_option maxHeartbeats 1000000 in
/-- On int64 inputs whose sum does not overflow, the idealized adjuster's
outputs and their sum stay in int64 range. -/
theorem acc_output_in_range (w b : Int)
    (hw1 : -9223372036854775808 ≤ w) (hw2 : w < 9223372036854775808)
    (hb1 : -9223372036854775808 ≤ b) (hb2 : b < 9223372036854775808)
    (hs1 : -9223372036854775808 ≤ w + b) (hs2 : w + b < 9223372036854775808) :
    -9223372036854775808 ≤ (ComputeAccountedWorkTime w b).1 ∧
      (ComputeAccountedWorkTime w b).1 < 9223372036854775808 ∧
      -9223372036854775808 ≤ (ComputeAccountedWorkTime w b).2 ∧
      (ComputeAccountedWorkTime w b).2 < 9223372036854775808 ∧
      -9223372036854775808 ≤
        (ComputeAccountedWorkTime w b).1 + (ComputeAccountedWorkTime w b).2 ∧
      (ComputeAccountedWorkTime w b).1 + (ComputeAccountedWorkTime w b).2 <
        9223372036854775808 := by
  unfold ComputeAccountedWorkTime capw capb tier2w tier2b tier1w tier1b
    Hour Minute
  dsimp only
  split_ifs <;> omega

/-- C8 (amended): `ComputeAccountedWorkTime`, in its actual wrapping int64
arithmetic, is idempotent on every int64 input pair (workTime, breakTime)
whose sum workTime + breakTime also fits in int64: applying it again to its
own output returns that output unchanged. -/
theorem accountedWorkTimeI64_idempotent (workTime breakTime : Int)
    (hw1 : -9223372036854775808 ≤ workTime)
    (hw2 : workTime < 9223372036854775808)
    (hb1 : -9223372036854775808 ≤ breakTime)
    (hb2 : breakTime < 9223372036854775808)
    (hs1 : -9223372036854775808 ≤ workTime + breakTime)
    (hs2 : workTime + breakTime < 9223372036854775808) :
    ComputeAccountedWorkTimeI64
        (ComputeAccountedWorkTimeI64 workTime breakTime).1
        (ComputeAccountedWorkTimeI64 workTime breakTime).2 =
      ComputeAccountedWorkTimeI64 workTime breakTime := by
  have hag := accI64_agrees workTime breakTime hw1 hw2 hb1 hb2 hs1 hs2
  obtain ⟨o1, o2, o3, o4, o5, o6⟩ :=
    acc_output_in_range workTime breakTime hw1 hw2 hb1 hb2 hs1 hs2
  rw [hag, accI64_agrees _ _ o1 o2 o3 o4 o5 o6]
  exact accountedWorkTime_idempotent workTime breakTime

theorem accountedWorkTimeI64_idempotent_witness :
    ComputeAccountedWorkTimeI64
        (ComputeAccountedWorkTimeI64 (7 * Hour) 0).1
        (ComputeAccountedWorkTimeI64 (7 * Hour) 0).2 =
      ComputeAccountedWorkTimeI64 (7 * Hour) 0 :=
  accountedWorkTimeI64_idempotent (7 * Hour) 0 (by decide) (by decide)
    (by decide) (by decide) (by decide) (by decide)
